import Mathlib

/-!
Shallow embedding of the presenterm horizontal slide transition
(`src/transitions/slide_horizontal.rs`) and the grid/run data model it
depends on. Cell characters are abstract: the development is parametric
over a character type `α` and a display-width function `w : α → Nat`
(the spec: wide glyphs count 2, ordinary glyphs 1). Machine integers
(`usize`, `u16`) are modelled as `Nat`; `saturating_sub` is `Nat`
subtraction; Rust panics (failed `assert!`, out-of-bounds indexing and
slicing) are modelled by `Option`, with `none` standing for a panic.
-/

namespace Presenterm

/-- Modelled from the spec: a `Style` carries a size multiplier (an
integer that is ≥ 1 for well-formed styles; cells occupy that many
display columns) and display attributes (color etc.), opaque to this
core and represented as a `Nat`. The type itself does not rule out
`size = 0`; spec-level well-formedness is stated where needed. -/
structure Style where
  size : Nat
  attrs : Nat
deriving DecidableEq

/-- Modelled from the spec: a run of characters sharing one style
(`markdown::elements::Text`, not under `src/`). -/
structure Text (α : Type) where
  content : List α
  style : Style
deriving DecidableEq

/-- Modelled from the spec: the visual width of a run's content is the
sum of each character's intrinsic display width (`Text::width` in the
source, backed by unicode width; here the width function `w` is a
parameter). Note the style size multiplier is NOT included here; the
caller multiplies by `style.size`. -/
def Text.width {α : Type} (w : α → Nat) (t : Text α) : Nat :=
  (t.content.map w).sum

/-- Modelled from the spec: one terminal cell, a character plus its
style (`terminal::virt::StyledChar`, not under `src/`). -/
structure StyledChar (α : Type) where
  character : α
  style : Style
deriving DecidableEq

/-- Modelled from the spec: a terminal grid is a matrix of cells plus a
background color and opaque image anchors (`terminal::virt::TerminalGrid`,
not under `src/`). Colors and image anchors are opaque; both are
represented with `Nat` payloads. -/
structure TerminalGrid (α : Type) where
  rows : List (List (StyledChar α))
  background_color : Option Nat
  images : List Nat
deriving DecidableEq

/-- `WindowSize` from the source's `WindowSize` usage: rows/columns in
cell units plus pixel height/width; only `columns` is used by the
horizontal slide transition. -/
structure WindowSize where
  rows : Nat
  columns : Nat
  height : Nat
  width : Nat
deriving DecidableEq

/-- `TransitionDirection`: playback direction. -/
inductive TransitionDirection where
  | Next
  | Previous
deriving DecidableEq

/-- Modelled from the spec: a `Line` is an ordered sequence of runs
(`markdown::elements::Line`, a newtype over a vector of `Text`, not
under `src/`). -/
structure Line (α : Type) where
  runs : List (Text α)
deriving DecidableEq

/-- `LinesFrame` (the `Frame` of the spec): ordered lines plus a
background color; modelled from the spec, the type itself is declared
in the transitions module which is not under `src/`. -/
structure LinesFrame (α : Type) where
  lines : List (Line α)
  background_color : Option Nat
deriving DecidableEq

/-- Modelled from the spec: the Run Merger (`terminal::virt::
TerminalRowIterator`, not under `src/`). Given a row of cells it
produces the runs of contiguous identical-style cells, in column
order; a run boundary occurs exactly where adjacent cells differ in
style. The lazy iterator of the source is rendered as the eagerly
built list it yields (spec §9: behavior-equivalent). -/
def TerminalRowIterator {α : Type} [DecidableEq α] :
    List (StyledChar α) → List (Text α)
  | [] => []
  | c :: rest =>
    match TerminalRowIterator rest with
    | [] => [⟨[c.character], c.style⟩]
    | t :: ts =>
      if c.style = t.style then ⟨c.character :: t.content, t.style⟩ :: ts
      else ⟨[c.character], c.style⟩ :: t :: ts

/-- `SlideHorizontalAnimation`: the combined grid plus the fixed
viewport dimensions (source lines 8-11). -/
structure SlideHorizontalAnimation (α : Type) where
  grid : TerminalGrid α
  dimensions : WindowSize
deriving DecidableEq

/-- `SlideHorizontalAnimation::new` (source lines 14-26). The three
`assert!`s and the `rows[0]` accesses are panics, modelled as `none`;
the row-count assert runs first, then the representative-row accesses
(which panic when the rows are empty), then the column-count assert and
the background assert. Rows are combined by `row.extend(right)` over
the zipped row lists and the images default to empty. -/
def SlideHorizontalAnimation.new {α : Type} (left right : TerminalGrid α)
    (dimensions : WindowSize) : Option (SlideHorizontalAnimation α) :=
  if left.rows.length = right.rows.length then
    match left.rows.head?, right.rows.head? with
    | some l0, some r0 =>
      if l0.length = r0.length then
        if left.background_color = right.background_color then
          some { grid := { rows := List.zipWith (fun a b => a ++ b) left.rows right.rows,
                           background_color := left.background_color,
                           images := [] },
                 dimensions := dimensions }
        else none
      else none
    | _, _ => none
  else none

/-- `SlideHorizontalAnimation::total_frames` (source lines 62-64):
`self.grid.rows[0].len().saturating_sub(self.dimensions.columns)`.
The `rows[0]` access panics on an empty row list, hence `Option`. -/
def SlideHorizontalAnimation.totalFrames {α : Type}
    (a : SlideHorizontalAnimation α) : Option Nat :=
  a.grid.rows.head?.map (fun r0 => r0.length - a.dimensions.columns)

/-- Rust slice `&row[start..start + len]` (source line 41): panics
(`none`) when the end of the range exceeds the row length. -/
def sliceRow {α : Type} (row : List (StyledChar α)) (start len : Nat) :
    Option (List (StyledChar α)) :=
  if start + len ≤ row.length then some ((row.drop start).take len) else none

/-- The run-accumulation loop of `build_frame` (source lines 44-56):
walk the merged runs tracking the accumulated width `width` against
`maxWidth`; a run that fits is pushed unchanged; a run that would
overflow is truncated to `(maxWidth - width) / size` leading characters
(Rust `saturating_sub` then integer division; the source divides by
`style.size`, which in Rust panics on a zero divisor — spec styles have
`size ≥ 1`, and `Nat` division by zero yields 0 here) and pushed unless
that count is 0, in which case the run is skipped (`continue`) without
advancing `width`. In both push branches `width` advances by the FULL
original visual width of the run. -/
def accumRuns {α : Type} (w : α → Nat) (maxWidth : Nat) :
    Nat → List (Text α) → List (Text α)
  | _, [] => []
  | width, t :: ts =>
    if maxWidth < width + t.width w * t.style.size then
      if (maxWidth - width) / t.style.size = 0 then accumRuns w maxWidth width ts
      else
        { t with content := t.content.take ((maxWidth - width) / t.style.size) } ::
          accumRuns w maxWidth (width + t.width w * t.style.size) ts
    else t :: accumRuns w maxWidth (width + t.width w * t.style.size) ts

/-- The per-row loop of `build_frame` (source lines 40-58): slice each
row to the window, merge it into runs, cap the runs against the
viewport width. A slice panic anywhere aborts the whole call. -/
def buildRows {α : Type} [DecidableEq α] (w : α → Nat) (cols index : Nat) :
    List (List (StyledChar α)) → Option (List (Line α))
  | [] => some []
  | row :: rest =>
    match sliceRow row index cols with
    | none => none
    | some r =>
      (buildRows w cols index rest).map
        (fun ls => Line.mk (accumRuns w cols 0 (TerminalRowIterator r)) :: ls)

/-- `SlideHorizontalAnimation::build_frame` (source lines 32-60):
clamp the frame index to the total, pick the window start column from
the direction (`Next` → `frame`, `Previous` → `total - frame`,
saturating), then build one capped line per grid row. -/
def SlideHorizontalAnimation.buildFrame {α : Type} [DecidableEq α] (w : α → Nat)
    (a : SlideHorizontalAnimation α) (frame : Nat)
    (direction : TransitionDirection) : Option (LinesFrame α) :=
  match a.totalFrames with
  | none => none
  | some total =>
    let frame := min frame total
    let index := match direction with
      | TransitionDirection.Next => frame
      | TransitionDirection.Previous => total - frame
    match buildRows w a.dimensions.columns index a.grid.rows with
    | none => none
    | some lines => some { lines := lines, background_color := a.grid.background_color }

/-- Total visual width of a line: sum over its runs of content display
width times style size (the quantity `build_frame` budgets against the
viewport column count). -/
def lineWidth {α : Type} (w : α → Nat) (l : Line α) : Nat :=
  (l.runs.map (fun t => t.width w * t.style.size)).sum

/-- Total visual width of a row of cells. -/
def rowWidth {α : Type} (w : α → Nat) (row : List (StyledChar α)) : Nat :=
  (row.map (fun c => w c.character * c.style.size)).sum

/-! ## Concrete fixtures (the grids of the source's unit tests and of
the spec's testable properties) -/

/-- A default-style cell, as in the source's test `build_grid`. -/
def chr (c : Char) : StyledChar Char := ⟨c, ⟨1, 0⟩⟩

/-- The left grid `["AB", "CD"]` of the source's tests. -/
def exLeft : TerminalGrid Char :=
  ⟨[[chr 'A', chr 'B'], [chr 'C', chr 'D']], none, []⟩

/-- The right grid `["EF", "GH"]` of the source's tests. -/
def exRight : TerminalGrid Char :=
  ⟨[[chr 'E', chr 'F'], [chr 'G', chr 'H']], none, []⟩

/-- The 2×2 viewport of the source's tests. -/
def exDims : WindowSize := ⟨2, 2, 0, 0⟩

/-- The transition the source's tests construct: combined grid
`["ABEF", "CDGH"]`, viewport 2×2. -/
def exAnim : SlideHorizontalAnimation Char :=
  ⟨⟨[[chr 'A', chr 'B', chr 'E', chr 'F'], [chr 'C', chr 'D', chr 'G', chr 'H']], none, []⟩,
   exDims⟩

/-- Every character one column wide (the tests use only narrow ASCII). -/
def w1 : Char → Nat := fun _ => 1

/-! ## Helper lemmas -/

/-- Inversion for `SlideHorizontalAnimation.new`: construction succeeds
exactly when the row counts agree, both grids have a representative row
and those rows have equal length, and the backgrounds agree; the result
is then the row-wise concatenation with the shared background and no
images. -/
theorem new_eq_some_iff {α : Type} {left right : TerminalGrid α} {d : WindowSize}
    {t : SlideHorizontalAnimation α} :
    SlideHorizontalAnimation.new left right d = some t ↔
      left.rows.length = right.rows.length ∧
      (∃ l0 r0, left.rows.head? = some l0 ∧ right.rows.head? = some r0 ∧
        l0.length = r0.length) ∧
      left.background_color = right.background_color ∧
      t = ⟨⟨List.zipWith (fun a b => a ++ b) left.rows right.rows,
            left.background_color, []⟩, d⟩ := by
  unfold SlideHorizontalAnimation.new
  constructor
  · intro h
    split at h
    case isFalse => exact absurd h (by simp)
    case isTrue h1 =>
      split at h
      case h_2 => exact absurd h (by simp)
      case h_1 l0 r0 hl hr =>
        split at h
        case isFalse => exact absurd h (by simp)
        case isTrue h2 =>
          split at h
          case isFalse => exact absurd h (by simp)
          case isTrue h3 =>
            cases h
            exact ⟨h1, ⟨l0, r0, hl, hr, h2⟩, h3, rfl⟩
  · rintro ⟨h1, ⟨l0, r0, hl, hr, h2⟩, h3, rfl⟩
    rw [if_pos h1, hl, hr]
    simp only
    rw [if_pos h2, if_pos h3]

/-- `get?` of a row-wise concatenation of two row lists. -/
theorem get?_zipWith_append {α : Type} :
    ∀ (l1 l2 : List (List α)) (i : Nat) (a b : List α),
      l1.get? i = some a → l2.get? i = some b →
      (List.zipWith (fun x y => x ++ y) l1 l2).get? i = some (a ++ b)
  | [], _, _, _, _, h, _ => by simp at h
  | _ :: _, [], _, _, _, _, h => by simp at h
  | x :: l1, y :: l2, 0, a, b, ha, hb => by
    simp only [List.get?] at ha hb
    cases ha; cases hb; rfl
  | x :: l1, y :: l2, i + 1, a, b, ha, hb => by
    simpa using get?_zipWith_append l1 l2 i a b (by simpa using ha) (by simpa using hb)

/-- Total visual width of a list of runs (the quantity the
accumulated `width` of the loop tracks, before any truncation). -/
def runsWidth {α : Type} (w : α → Nat) (ts : List (Text α)) : Nat :=
  (ts.map (fun t => t.width w * t.style.size)).sum

theorem runsWidth_cons {α : Type} (w : α → Nat) (t : Text α)
    (ts : List (Text α)) :
    runsWidth w (t :: ts) = t.width w * t.style.size + runsWidth w ts := rfl

theorem rowWidth_cons {α : Type} (w : α → Nat) (c : StyledChar α)
    (row : List (StyledChar α)) :
    rowWidth w (c :: row) = w c.character * c.style.size + rowWidth w row := rfl

/-- Once the accumulated width strictly exceeds the budget, every
remaining run overflows with zero remaining whole-character slots, so
the loop drops everything. -/
theorem accumRuns_nil_of_lt {α : Type} (w : α → Nat) (maxW : Nat) :
    ∀ (width : Nat) (ts : List (Text α)), maxW < width →
      accumRuns w maxW width ts = []
  | _, [], _ => rfl
  | width, t :: ts, h => by
    unfold accumRuns
    rw [if_pos (by omega), if_pos (by
      have hz : maxW - width = 0 := by omega
      rw [hz, Nat.zero_div])]
    exact accumRuns_nil_of_lt w maxW width ts h

/-- Runs whose combined width fits in the remaining budget pass through
the accumulator unchanged. -/
theorem accumRuns_of_fits {α : Type} (w : α → Nat) (maxW : Nat) :
    ∀ (width : Nat) (ts : List (Text α)),
      width + runsWidth w ts ≤ maxW → accumRuns w maxW width ts = ts
  | _, [], _ => rfl
  | width, t :: ts, h => by
    rw [runsWidth_cons] at h
    unfold accumRuns
    rw [if_neg (by omega)]
    rw [accumRuns_of_fits w maxW (width + t.width w * t.style.size) ts (by omega)]

/-- The Run Merger preserves total visual width: summing each run's
content width times its style size gives the row's cell-wise width. -/
theorem runsWidth_TerminalRowIterator {α : Type} [DecidableEq α] (w : α → Nat) :
    ∀ row : List (StyledChar α),
      runsWidth w (TerminalRowIterator row) = rowWidth w row
  | [] => rfl
  | c :: rest => by
    have ih := runsWidth_TerminalRowIterator w rest
    unfold TerminalRowIterator
    cases hm : TerminalRowIterator rest with
    | nil =>
      rw [hm] at ih
      simp only [runsWidth, List.map_nil, List.sum_nil] at ih
      rw [runsWidth_cons, rowWidth_cons, ← ih]
      show (w c.character + 0) * c.style.size + 0 = w c.character * c.style.size + 0
      simp
    | cons t ts =>
      rw [hm] at ih
      rw [runsWidth_cons] at ih
      have hred : runsWidth w
          (if c.style = t.style then
            ({ content := c.character :: t.content, style := t.style } : Text α) :: ts
          else ({ content := [c.character], style := c.style } : Text α) :: t :: ts) =
          rowWidth w (c :: rest) → runsWidth w
          (match t :: ts with
          | [] => [({ content := [c.character], style := c.style } : Text α)]
          | t :: ts =>
            if c.style = t.style then
              { content := c.character :: t.content, style := t.style } :: ts
            else { content := [c.character], style := c.style } :: t :: ts) =
          rowWidth w (c :: rest) := fun hx => hx
      refine hred ?_
      by_cases hs : c.style = t.style
      · rw [if_pos hs, runsWidth_cons, rowWidth_cons]
        show (w c.character + t.width w) * t.style.size + runsWidth w ts =
          w c.character * c.style.size + rowWidth w rest
        rw [Nat.add_mul, hs]
        omega
      · rw [if_neg hs, runsWidth_cons, runsWidth_cons, rowWidth_cons]
        show (w c.character + 0) * c.style.size +
            (t.width w * t.style.size + runsWidth w ts) =
          w c.character * c.style.size + rowWidth w rest
        rw [Nat.add_mul, ih]
        omega

/-- One-step equation for the Run Merger when the tail merges to
nothing. -/
theorem TerminalRowIterator_cons_nil {α : Type} [DecidableEq α]
    (c : StyledChar α) (rest : List (StyledChar α))
    (hm : TerminalRowIterator rest = []) :
    TerminalRowIterator (c :: rest) = [⟨[c.character], c.style⟩] := by
  unfold TerminalRowIterator
  rw [hm]

/-- One-step equation for the Run Merger when the tail merges to a
first run `t0`: the head cell either extends `t0` (same style) or
starts a fresh run. -/
theorem TerminalRowIterator_cons_cons {α : Type} [DecidableEq α]
    (c : StyledChar α) (rest : List (StyledChar α)) (t0 : Text α)
    (ts0 : List (Text α)) (hm : TerminalRowIterator rest = t0 :: ts0) :
    TerminalRowIterator (c :: rest) =
      if c.style = t0.style then ⟨c.character :: t0.content, t0.style⟩ :: ts0
      else ⟨[c.character], c.style⟩ :: t0 :: ts0 := by
  unfold TerminalRowIterator
  rw [hm]

/-- With a zero-column window every slice is the empty list, so every
line comes out empty. -/
theorem buildRows_zero {α : Type} [DecidableEq α] (w : α → Nat) :
    ∀ rows : List (List (StyledChar α)),
      buildRows w 0 0 rows = some (rows.map (fun _ => Line.mk []))
  | [] => rfl
  | row :: rest => by
    unfold buildRows sliceRow
    rw [if_pos (by omega)]
    rw [buildRows_zero w rest]
    rfl

/-- When the window is each entire row and every row's visual width
fits the viewport, the per-row loop returns each row's merged runs
untouched. -/
theorem buildRows_full {α : Type} [DecidableEq α] (w : α → Nat) (cols : Nat) :
    ∀ rows : List (List (StyledChar α)),
      (∀ row ∈ rows, row.length = cols) →
      (∀ row ∈ rows, rowWidth w row ≤ cols) →
      buildRows w cols 0 rows =
        some (rows.map (fun row => Line.mk (TerminalRowIterator row)))
  | [], _, _ => rfl
  | row :: rest, hlen, hwid => by
    have hlen0 := hlen row (List.mem_cons_self row rest)
    unfold buildRows sliceRow
    rw [if_pos (by omega)]
    have hslice : (row.drop 0).take cols = row := by
      rw [List.drop_zero, ← hlen0, List.take_length]
    rw [hslice]
    rw [buildRows_full w cols rest
      (fun r hr => hlen r (List.mem_cons_of_mem row hr))
      (fun r hr => hwid r (List.mem_cons_of_mem row hr))]
    show Option.map (fun ls => Line.mk (accumRuns w cols 0 (TerminalRowIterator row)) :: ls)
        (some (rest.map (fun r => Line.mk (TerminalRowIterator r)))) =
      some ((row :: rest).map (fun r => Line.mk (TerminalRowIterator r)))
    rw [accumRuns_of_fits w cols 0 (TerminalRowIterator row) (by
      rw [runsWidth_TerminalRowIterator]
      have := hwid row (List.mem_cons_self row rest)
      omega)]
    rfl

/-- Every character of every merged run comes from the input row, so a
per-character property of the row carries over to the runs. -/
theorem TerminalRowIterator_chars {α : Type} [DecidableEq α] (P : α → Prop) :
    ∀ row : List (StyledChar α), (∀ c ∈ row, P c.character) →
      ∀ t ∈ TerminalRowIterator row, ∀ ch ∈ t.content, P ch
  | [], _, t, ht, _, _ => absurd ht (by simp [TerminalRowIterator])
  | c :: rest, h, t, ht, ch, hch => by
    have ih := TerminalRowIterator_chars P rest
      (fun x hx => h x (List.mem_cons_of_mem c hx))
    have hc0 : P c.character := h c (List.mem_cons_self c rest)
    cases hm : TerminalRowIterator rest with
    | nil =>
      rw [TerminalRowIterator_cons_nil c rest hm] at ht
      have ht2 : t = ⟨[c.character], c.style⟩ := by simpa using ht
      subst ht2
      have : ch = c.character := by simpa using hch
      subst this
      exact hc0
    | cons t0 ts0 =>
      rw [TerminalRowIterator_cons_cons c rest t0 ts0 hm] at ht
      have hmem0 : t0 ∈ TerminalRowIterator rest := by
        rw [hm]; exact List.mem_cons_self t0 ts0
      by_cases hs : c.style = t0.style
      · rw [if_pos hs] at ht
        rcases List.mem_cons.mp ht with rfl | hmem
        · rcases List.mem_cons.mp hch with rfl | hch2
          · exact hc0
          · exact ih t0 hmem0 ch hch2
        · exact ih t (by rw [hm]; exact List.mem_cons_of_mem t0 hmem) ch hch
      · rw [if_neg hs] at ht
        rcases List.mem_cons.mp ht with rfl | hmem
        · have : ch = c.character := by simpa using hch
          subst this
          exact hc0
        · exact ih t (by rw [hm]; exact hmem) ch hch

/-- One-step equation for `accumRuns` on a cons cell. -/
theorem accumRuns_cons {α : Type} (w : α → Nat) (maxW width : Nat)
    (t : Text α) (ts : List (Text α)) :
    accumRuns w maxW width (t :: ts) =
      if maxW < width + t.width w * t.style.size then
        if (maxW - width) / t.style.size = 0 then accumRuns w maxW width ts
        else
          { t with content := t.content.take ((maxW - width) / t.style.size) } ::
            accumRuns w maxW (width + t.width w * t.style.size) ts
      else t :: accumRuns w maxW (width + t.width w * t.style.size) ts := by
  conv_lhs => unfold accumRuns

/-- When every character of every run is at most one column wide, the
runs the loop keeps total at most the remaining budget: a fitting run
is counted in full, a truncated run keeps at most
`⌊remaining / size⌋ * size ≤ remaining` columns, and everything after a
truncation is dropped. -/
theorem accumRuns_width_le {α : Type} (w : α → Nat) (maxW : Nat) :
    ∀ (width : Nat) (ts : List (Text α)),
      (∀ t ∈ ts, ∀ ch ∈ t.content, w ch ≤ 1) →
      runsWidth w (accumRuns w maxW width ts) ≤ maxW - width
  | _, [], _ => by
    show runsWidth w [] ≤ _
    exact Nat.zero_le _
  | width, t :: ts, h => by
    have hrest := fun t' ht' => h t' (List.mem_cons_of_mem t ht')
    rw [accumRuns_cons]
    split
    case isTrue hov =>
      split
      case isTrue hc =>
        have ih := accumRuns_width_le w maxW width ts hrest
        exact ih
      case isFalse hc =>
        rw [runsWidth_cons,
          accumRuns_nil_of_lt w maxW (width + t.width w * t.style.size) ts hov]
        have h1 : Text.width w
            ⟨t.content.take ((maxW - width) / t.style.size), t.style⟩ ≤
            (maxW - width) / t.style.size := by
          have hb : ∀ x ∈ (t.content.take ((maxW - width) / t.style.size)).map w,
              x ≤ 1 := by
            intro x hx
            obtain ⟨ch, hch, rfl⟩ := List.mem_map.mp hx
            exact h t (List.mem_cons_self t ts) ch (List.mem_of_mem_take hch)
          have hs := List.sum_le_card_nsmul
            ((t.content.take ((maxW - width) / t.style.size)).map w) 1 hb
          simp only [smul_eq_mul, Nat.mul_one] at hs
          have hlen : ((t.content.take ((maxW - width) / t.style.size)).map w).length ≤
              (maxW - width) / t.style.size := by
            rw [List.length_map]
            exact List.length_take_le _ _
          show ((t.content.take ((maxW - width) / t.style.size)).map w).sum ≤
            (maxW - width) / t.style.size
          omega
        have h2 : ((maxW - width) / t.style.size) * t.style.size ≤ maxW - width :=
          Nat.div_mul_le_self _ _
        have h3 := Nat.mul_le_mul_right t.style.size h1
        show Text.width w ⟨t.content.take ((maxW - width) / t.style.size), t.style⟩ *
            t.style.size + runsWidth w [] ≤ maxW - width
        show _ * t.style.size + 0 ≤ maxW - width
        omega
    case isFalse hov =>
      rw [runsWidth_cons]
      have ih := accumRuns_width_le w maxW (width + t.width w * t.style.size) ts hrest
      omega

/-- A cell of a successful row slice is a cell of the row. -/
theorem sliceRow_subset {α : Type} {row rs : List (StyledChar α)}
    {start len : Nat} (h : sliceRow row start len = some rs) :
    ∀ c ∈ rs, c ∈ row := by
  intro c hc
  unfold sliceRow at h
  split at h
  · cases h
    exact List.mem_of_mem_drop (List.mem_of_mem_take hc)
  · exact absurd h (by simp)

/-- Inversion for the per-row loop: every produced line is the capped
merge of a successful slice of some grid row. -/
theorem buildRows_mem {α : Type} [DecidableEq α] (w : α → Nat)
    (cols idx : Nat) :
    ∀ (rows : List (List (StyledChar α))) (lines : List (Line α)),
      buildRows w cols idx rows = some lines →
      ∀ line ∈ lines, ∃ row ∈ rows, ∃ rs, sliceRow row idx cols = some rs ∧
        line = Line.mk (accumRuns w cols 0 (TerminalRowIterator rs))
  | [], lines, h, line, hl => by
    have : lines = [] := by
      have h2 : some [] = some lines := h
      cases h2
      rfl
    subst this
    exact absurd hl (by simp)
  | row :: rest, lines, h, line, hl => by
    unfold buildRows at h
    split at h
    · exact absurd h (by simp)
    case h_2 rs hs =>
      rw [Option.map_eq_some'] at h
      obtain ⟨ls, hr, hf⟩ := h
      rcases List.mem_cons.mp (hf ▸ hl) with rfl | hmem
      · exact ⟨row, List.mem_cons_self row rest, rs, hs, rfl⟩
      · obtain ⟨row', hrow', rs', hrs', hline⟩ :=
          buildRows_mem w cols idx rest ls hr line hmem
        exact ⟨row', List.mem_cons_of_mem row hrow', rs', hrs', hline⟩

/-- Reduction of `buildFrame` once `totalFrames` is known. -/
theorem buildFrame_eq {α : Type} [DecidableEq α] (w : α → Nat)
    (a : SlideHorizontalAnimation α) (total : Nat)
    (h : a.totalFrames = some total) (f : Nat) (d : TransitionDirection) :
    a.buildFrame w f d =
      match buildRows w a.dimensions.columns
          (match d with
            | TransitionDirection.Next => min f total
            | TransitionDirection.Previous => total - min f total)
          a.grid.rows with
      | none => none
      | some lines => some ⟨lines, a.grid.background_color⟩ := by
  unfold SlideHorizontalAnimation.buildFrame
  rw [h]

/-- When every row is long enough for the window, every slice succeeds
and the per-row loop returns lines. -/
theorem buildRows_isSome {α : Type} [DecidableEq α] (w : α → Nat)
    (cols idx : Nat) :
    ∀ rows : List (List (StyledChar α)),
      (∀ row ∈ rows, idx + cols ≤ row.length) →
      (buildRows w cols idx rows).isSome
  | [], _ => rfl
  | row :: rest, h => by
    unfold buildRows sliceRow
    rw [if_pos (h row (List.mem_cons_self row rest))]
    have hrec := buildRows_isSome w cols idx rest
      (fun r hr => h r (List.mem_cons_of_mem row hr))
    obtain ⟨ls, hls⟩ := Option.isSome_iff_exists.mp hrec
    rw [hls]
    rfl

/-! ## Claims -/

/-- C1: mirror symmetry of `build_frame`: for every constructed
horizontal slide transition (any transition whose `total_frames()` is
defined, which every constructed one is) and every frame index `f` with
`0 ≤ f ≤ total_frames()`, `build_frame(f, Previous)` returns the same
frame as `build_frame(total_frames() - f, Next)`. -/
theorem buildFrame_mirror_symmetry {α : Type} [DecidableEq α] (w : α → Nat)
    (a : SlideHorizontalAnimation α) (total f : Nat)
    (h : a.totalFrames = some total) (hf : f ≤ total) :
    a.buildFrame w f TransitionDirection.Previous =
      a.buildFrame w (total - f) TransitionDirection.Next := by
  unfold SlideHorizontalAnimation.buildFrame
  rw [h]
  simp only [min_eq_left hf, min_eq_left (Nat.sub_le total f)]

/-- Witness for C1: on the transition of the source's unit tests
(`total_frames() = 2`), frame 1 backwards equals frame `2 - 1`
forwards. -/
theorem buildFrame_mirror_symmetry_witness :
    exAnim.buildFrame w1 1 TransitionDirection.Previous =
      exAnim.buildFrame w1 (2 - 1) TransitionDirection.Next :=
  buildFrame_mirror_symmetry w1 exAnim 2 1 rfl (by decide)

/-- C2 counterexample: a run dropped for overflow does NOT stop the
accumulation. Row `[1(size 1), 2(size 3), 3(size 1)]` under a 3-column
viewport merges into three runs; the middle run (width 1×3 = 3)
overflows the remaining budget 3−1 = 2 with ⌊2/3⌋ = 0 whole-character
slots and is dropped, yet the third run still fits and IS appended —
refuting "after the first run that is truncated or dropped for
overflow no subsequent run is added to that line". -/
theorem buildFrame_run_overflow_cex :
    TerminalRowIterator
        [(⟨1, ⟨1, 0⟩⟩ : StyledChar Nat), ⟨2, ⟨3, 1⟩⟩, ⟨3, ⟨1, 2⟩⟩] =
      [⟨[1], ⟨1, 0⟩⟩, ⟨[2], ⟨3, 1⟩⟩, ⟨[3], ⟨1, 2⟩⟩] ∧
    (⟨⟨[[⟨1, ⟨1, 0⟩⟩, ⟨2, ⟨3, 1⟩⟩, ⟨3, ⟨1, 2⟩⟩]], none, []⟩,
        ⟨1, 3, 0, 0⟩⟩ : SlideHorizontalAnimation Nat).buildFrame id 0
        TransitionDirection.Next =
      some ⟨[Line.mk [⟨[1], ⟨1, 0⟩⟩, ⟨[3], ⟨1, 2⟩⟩]], none⟩ := by
  constructor <;> rfl

/-- C2 (amended): accumulating runs left to right against the
viewport-column budget: a run that fits is appended unchanged; a run
whose full visual width exceeds the remaining budget is truncated to
`⌊remaining / size⌋` leading characters and appended when that count is
at least 1, the tracked width advancing by the run's FULL untruncated
width; when that count is 0 the run is dropped and accumulation
continues with the width unchanged, so later runs that fit may still
be appended. Once the tracked width strictly exceeds the budget — as
it does after any truncated run — every subsequent run is dropped. -/
theorem accumRuns_overflow_spec {α : Type} (w : α → Nat)
    (maxW width : Nat) (t : Text α) (ts : List (Text α)) :
    (width + t.width w * t.style.size ≤ maxW →
      accumRuns w maxW width (t :: ts) =
        t :: accumRuns w maxW (width + t.width w * t.style.size) ts) ∧
    (maxW < width + t.width w * t.style.size →
      1 ≤ (maxW - width) / t.style.size →
      accumRuns w maxW width (t :: ts) =
        ⟨t.content.take ((maxW - width) / t.style.size), t.style⟩ ::
          accumRuns w maxW (width + t.width w * t.style.size) ts) ∧
    (maxW < width + t.width w * t.style.size →
      (maxW - width) / t.style.size = 0 →
      accumRuns w maxW width (t :: ts) = accumRuns w maxW width ts) ∧
    (maxW < width → accumRuns w maxW width ts = []) := by
  refine ⟨fun hfit => ?_, fun hov hc => ?_, fun hov hc => ?_,
    accumRuns_nil_of_lt w maxW width ts⟩
  · conv_lhs => unfold accumRuns
    rw [if_neg (by omega)]
  · conv_lhs => unfold accumRuns
    rw [if_pos hov, if_neg (by omega)]
  · conv_lhs => unfold accumRuns
    rw [if_pos hov, if_pos hc]

/-- Witness for C2 (amended): concrete instances of the drop case (the
counterexample's middle run) and of the truncation case. -/
theorem accumRuns_overflow_spec_witness :
    accumRuns id 3 1 [(⟨[2], ⟨3, 1⟩⟩ : Text Nat), ⟨[3], ⟨1, 2⟩⟩] =
      accumRuns id 3 1 [(⟨[3], ⟨1, 2⟩⟩ : Text Nat)] ∧
    accumRuns id 2 0 [(⟨[7, 7, 7], ⟨1, 0⟩⟩ : Text Nat)] =
      [⟨[7, 7], ⟨1, 0⟩⟩] :=
  ⟨(accumRuns_overflow_spec id 3 1 ⟨[2], ⟨3, 1⟩⟩ [⟨[3], ⟨1, 2⟩⟩]).2.2.1
      (by decide) (by decide),
   (accumRuns_overflow_spec id 2 0 ⟨[7, 7, 7], ⟨1, 0⟩⟩ []).2.1
      (by decide) (by decide)⟩

/-- C3 counterexample: `build_frame` can fail on a constructed
transition. Two compatible one-cell grids give a combined width of 2;
with a viewport of 3 columns the slice `&row[0..3]` is out of range, so
`build_frame(0, Next)` panics (modelled as `none`) — refuting "for
every constructed transition ... build_frame(f, d) never fails". -/
theorem buildFrame_clamp_cex :
    SlideHorizontalAnimation.new
        (⟨[[⟨1, ⟨1, 0⟩⟩]], none, []⟩ : TerminalGrid Nat)
        (⟨[[⟨1, ⟨1, 0⟩⟩]], none, []⟩ : TerminalGrid Nat) ⟨1, 3, 0, 0⟩ =
      some ⟨⟨[[⟨1, ⟨1, 0⟩⟩, ⟨1, ⟨1, 0⟩⟩]], none, []⟩, ⟨1, 3, 0, 0⟩⟩ ∧
    (⟨⟨[[⟨1, ⟨1, 0⟩⟩, ⟨1, ⟨1, 0⟩⟩]], none, []⟩, ⟨1, 3, 0, 0⟩⟩ :
        SlideHorizontalAnimation Nat).buildFrame id 0
        TransitionDirection.Next = none := by
  constructor <;> rfl

/-- C3 (amended): out-of-range frame indices are clamped —
`build_frame(f, d) = build_frame(total_frames(), d)` whenever
`f > total_frames()`, unconditionally — and `build_frame` never fails
provided every row of the combined grid is long enough for the sliding
window (in particular whenever the grid is rectangular with column
count at least `viewport.columns`). -/
theorem buildFrame_clamp_spec {α : Type} [DecidableEq α] (w : α → Nat)
    (a : SlideHorizontalAnimation α) (total : Nat)
    (h : a.totalFrames = some total) :
    (∀ f d, total < f → a.buildFrame w f d = a.buildFrame w total d) ∧
    ((∀ row ∈ a.grid.rows, a.dimensions.columns + total ≤ row.length) →
      ∀ f d, (a.buildFrame w f d).isSome) := by
  constructor
  · intro f d hf
    rw [buildFrame_eq w a total h, buildFrame_eq w a total h]
    rw [min_eq_right (Nat.le_of_lt hf), min_self]
  · intro hlen f d
    rw [buildFrame_eq w a total h]
    cases d with
    | Next =>
      have hsome := buildRows_isSome w a.dimensions.columns (min f total)
        a.grid.rows (fun row hr => by
          have h2 := hlen row hr
          have h3 := min_le_right f total
          omega)
      obtain ⟨ls, hls⟩ := Option.isSome_iff_exists.mp hsome
      simp only [hls]
      rfl
    | Previous =>
      have hsome := buildRows_isSome w a.dimensions.columns
        (total - min f total) a.grid.rows (fun row hr => by
          have h2 := hlen row hr
          have h3 := Nat.sub_le total (min f total)
          omega)
      obtain ⟨ls, hls⟩ := Option.isSome_iff_exists.mp hsome
      simp only [hls]
      rfl

/-- Witness for C3 (amended): on the source's test transition, frame
100 forward equals frame 2 forward, and frame 0 forward succeeds. -/
theorem buildFrame_clamp_spec_witness :
    exAnim.buildFrame w1 100 TransitionDirection.Next =
      exAnim.buildFrame w1 2 TransitionDirection.Next ∧
    (exAnim.buildFrame w1 0 TransitionDirection.Next).isSome :=
  ⟨(buildFrame_clamp_spec w1 exAnim 2 rfl).1 100 TransitionDirection.Next
      (by decide),
   (buildFrame_clamp_spec w1 exAnim 2 rfl).2 (by decide) 0
      TransitionDirection.Next⟩

/-- C4: for every constructed transition, `total_frames()` equals
`max(0, combined_column_count - viewport.columns)` where the combined
column count is the length of the combined grid's first row. -/
theorem totalFrames_formula {α : Type} (left right : TerminalGrid α)
    (d : WindowSize) (t : SlideHorizontalAnimation α)
    (r0 : List (StyledChar α))
    (h : SlideHorizontalAnimation.new left right d = some t)
    (h0 : t.grid.rows.head? = some r0) :
    (t.totalFrames).map (fun n => (n : ℤ)) =
      some (max 0 ((r0.length : ℤ) - (d.columns : ℤ))) := by
  obtain ⟨-, -, -, rfl⟩ := new_eq_some_iff.mp h
  unfold SlideHorizontalAnimation.totalFrames
  rw [h0]
  show some ((r0.length - d.columns : Nat) : ℤ) = some (max 0 _)
  refine congrArg some ?_
  omega

/-- Witness for C4: the source's test transition has combined width 4
and viewport width 2, and `total_frames() = max(0, 4 - 2) = 2`. -/
theorem totalFrames_formula_witness :
    (exAnim.totalFrames).map (fun n => (n : ℤ)) =
      some (max 0 (([chr 'A', chr 'B', chr 'E', chr 'F'].length : ℤ) -
        (exDims.columns : ℤ))) :=
  totalFrames_formula exLeft exRight exDims exAnim _ (by decide) rfl

/-- C5: for grids with equal row count, equal per-row column count and
equal background, row `i` of the combined grid is row `i` of `left`
concatenated with row `i` of `right`, for every row index `i`, and the
combined background is the shared input background. -/
theorem combine_rows_concat {α : Type} (left right : TerminalGrid α)
    (d : WindowSize) (t : SlideHorizontalAnimation α)
    (_hsh : List.Forall₂ (fun a b => a.length = b.length) left.rows right.rows)
    (_hbg : left.background_color = right.background_color)
    (h : SlideHorizontalAnimation.new left right d = some t) :
    (∀ i a b, left.rows.get? i = some a → right.rows.get? i = some b →
       t.grid.rows.get? i = some (a ++ b)) ∧
    t.grid.background_color = left.background_color := by
  obtain ⟨-, -, -, rfl⟩ := new_eq_some_iff.mp h
  exact ⟨fun i a b ha hb => get?_zipWith_append _ _ i a b ha hb, rfl⟩

/-- Witness for C5: on the source's test grids, row 0 of the combined
grid is `"AB" ++ "EF"` and the background is shared. -/
theorem combine_rows_concat_witness :
    exAnim.grid.rows.get? 0 = some ([chr 'A', chr 'B'] ++ [chr 'E', chr 'F']) ∧
    exAnim.grid.background_color = exLeft.background_color :=
  ⟨(combine_rows_concat exLeft exRight exDims exAnim
      (by simp [exLeft, exRight]) rfl (by decide)).1 0 _ _ rfl rfl,
   (combine_rows_concat exLeft exRight exDims exAnim
      (by simp [exLeft, exRight]) rfl (by decide)).2⟩

/-- C6 counterexample, both failure modes of "viewport ≥ combined width
⇒ entire grid shown, no truncation". (a) Strictly wider: two one-cell
grids combine to width 2; under a 4-column viewport `total_frames() = 0`
but the slice `&row[0..4]` is out of range, so `build_frame(0, Next)`
panics (modelled as `none`) instead of returning the grid. (b) Equal
width: two one-cell grids of size-2 cells combine to width 2; under a
2-column viewport the whole row is sliced and merges into the single
run `[1, 1]` of visual width 2×2 = 4 > 2, which `build_frame` truncates
to ⌊2/2⌋ = 1 character — the emitted line `[1]` is NOT the entire row's
merged run, so even at equal width the grid is only shown untruncated
when every row's visual width fits the viewport. -/
theorem wide_viewport_cex :
    (SlideHorizontalAnimation.new
        (⟨[[⟨5, ⟨1, 0⟩⟩]], none, []⟩ : TerminalGrid Nat)
        (⟨[[⟨6, ⟨1, 0⟩⟩]], none, []⟩ : TerminalGrid Nat) ⟨1, 4, 0, 0⟩ =
      some ⟨⟨[[⟨5, ⟨1, 0⟩⟩, ⟨6, ⟨1, 0⟩⟩]], none, []⟩, ⟨1, 4, 0, 0⟩⟩ ∧
    (⟨⟨[[⟨5, ⟨1, 0⟩⟩, ⟨6, ⟨1, 0⟩⟩]], none, []⟩, ⟨1, 4, 0, 0⟩⟩ :
        SlideHorizontalAnimation Nat).totalFrames = some 0 ∧
    (⟨⟨[[⟨5, ⟨1, 0⟩⟩, ⟨6, ⟨1, 0⟩⟩]], none, []⟩, ⟨1, 4, 0, 0⟩⟩ :
        SlideHorizontalAnimation Nat).buildFrame id 0
        TransitionDirection.Next = none) ∧
    (SlideHorizontalAnimation.new
        (⟨[[⟨1, ⟨2, 0⟩⟩]], none, []⟩ : TerminalGrid Nat)
        (⟨[[⟨1, ⟨2, 0⟩⟩]], none, []⟩ : TerminalGrid Nat) ⟨1, 2, 0, 0⟩ =
      some ⟨⟨[[⟨1, ⟨2, 0⟩⟩, ⟨1, ⟨2, 0⟩⟩]], none, []⟩, ⟨1, 2, 0, 0⟩⟩ ∧
    (⟨⟨[[⟨1, ⟨2, 0⟩⟩, ⟨1, ⟨2, 0⟩⟩]], none, []⟩, ⟨1, 2, 0, 0⟩⟩ :
        SlideHorizontalAnimation Nat).totalFrames = some 0 ∧
    TerminalRowIterator [(⟨1, ⟨2, 0⟩⟩ : StyledChar Nat), ⟨1, ⟨2, 0⟩⟩] =
      [⟨[1, 1], ⟨2, 0⟩⟩] ∧
    (⟨⟨[[⟨1, ⟨2, 0⟩⟩, ⟨1, ⟨2, 0⟩⟩]], none, []⟩, ⟨1, 2, 0, 0⟩⟩ :
        SlideHorizontalAnimation Nat).buildFrame id 0
        TransitionDirection.Next =
      some ⟨[Line.mk [⟨[1], ⟨2, 0⟩⟩]], none⟩ ∧
    Line.mk [(⟨[1], ⟨2, 0⟩⟩ : Text Nat)] ≠
      Line.mk [(⟨[1, 1], ⟨2, 0⟩⟩ : Text Nat)]) := by
  refine ⟨⟨rfl, rfl, rfl⟩, rfl, rfl, rfl, rfl, by decide⟩

/-- C6 (amended): when the viewport column count is at least the
combined grid's column count, `total_frames() = 0` and the window start
is 0 for every frame and direction (every call equals
`build_frame(0, Next)`). When the viewport EQUALS the combined width
(grid rectangular) and every row's visual width fits the viewport, the
entire combined grid is shown with no run truncated or dropped; when
the viewport is strictly wider, `build_frame` fails (out-of-range
slice). -/
theorem wide_viewport_spec {α : Type} [DecidableEq α] (w : α → Nat)
    (a : SlideHorizontalAnimation α) (r0 : List (StyledChar α))
    (h0 : a.grid.rows.head? = some r0)
    (hw : r0.length ≤ a.dimensions.columns) :
    a.totalFrames = some 0 ∧
    (∀ f d, a.buildFrame w f d =
      a.buildFrame w 0 TransitionDirection.Next) ∧
    ((∀ row ∈ a.grid.rows, row.length = a.dimensions.columns) →
      (∀ row ∈ a.grid.rows, rowWidth w row ≤ a.dimensions.columns) →
      a.buildFrame w 0 TransitionDirection.Next =
        some ⟨a.grid.rows.map (fun row => Line.mk (TerminalRowIterator row)),
          a.grid.background_color⟩) ∧
    (r0.length < a.dimensions.columns → ∀ f d, a.buildFrame w f d = none) := by
  have htot : a.totalFrames = some 0 := by
    unfold SlideHorizontalAnimation.totalFrames
    rw [h0]
    show some (r0.length - a.dimensions.columns) = some 0
    exact congrArg some (Nat.sub_eq_zero_of_le hw)
  refine ⟨htot, fun f d => ?_, fun hlen hwid => ?_, fun hlt f d => ?_⟩
  · rw [buildFrame_eq w a 0 htot, buildFrame_eq w a 0 htot]
    cases d with
    | Next => rw [Nat.min_zero, Nat.min_zero]
    | Previous => rw [Nat.min_zero, Nat.min_zero]
  · rw [buildFrame_eq w a 0 htot]
    show (match buildRows w a.dimensions.columns (min 0 0) a.grid.rows with
      | none => none
      | some lines => some (LinesFrame.mk lines a.grid.background_color)) = _
    rw [Nat.min_zero, buildRows_full w a.dimensions.columns a.grid.rows hlen hwid]
  · rw [buildFrame_eq w a 0 htot]
    cases hrows : a.grid.rows with
    | nil => rw [hrows] at h0; exact absurd h0 (by simp)
    | cons r rest =>
      rw [hrows] at h0
      have hr : r = r0 := by
        simpa using h0
      subst hr
      have hslice : sliceRow r (match d with
          | TransitionDirection.Next => min f 0
          | TransitionDirection.Previous => 0 - min f 0) a.dimensions.columns = none := by
        unfold sliceRow
        rw [if_neg (by omega)]
      unfold buildRows
      rw [hslice]

/-- Witness for C6 (amended): a one-cell grid with the viewport equal
to its width: `total_frames() = 0` and the whole grid is shown. -/
theorem wide_viewport_spec_witness :
    (⟨⟨[[chr 'A']], none, []⟩, ⟨1, 1, 0, 0⟩⟩ :
        SlideHorizontalAnimation Char).totalFrames = some 0 ∧
    (⟨⟨[[chr 'A']], none, []⟩, ⟨1, 1, 0, 0⟩⟩ :
        SlideHorizontalAnimation Char).buildFrame w1 0
        TransitionDirection.Next =
      some ⟨[Line.mk [⟨['A'], ⟨1, 0⟩⟩]], none⟩ :=
  ⟨(wide_viewport_spec w1 ⟨⟨[[chr 'A']], none, []⟩, ⟨1, 1, 0, 0⟩⟩
      [chr 'A'] rfl (by decide)).1,
   (wide_viewport_spec w1 ⟨⟨[[chr 'A']], none, []⟩, ⟨1, 1, 0, 0⟩⟩
      [chr 'A'] rfl (by decide)).2.2.1 (by decide) (by decide)⟩

/-- C7 counterexample: a transition over a zero-column combined grid is
NOT always well defined. Two grids with one empty row each combine
fine, but under a 1-column viewport the slice `&row[0..1]` of the
empty row is out of range: `build_frame` panics (modelled `none`)
instead of returning an empty Frame. -/
theorem degenerate_cex :
    SlideHorizontalAnimation.new (⟨[[]], none, []⟩ : TerminalGrid Nat)
        ⟨[[]], none, []⟩ ⟨1, 1, 0, 0⟩ =
      some ⟨⟨[[]], none, []⟩, ⟨1, 1, 0, 0⟩⟩ ∧
    (⟨⟨[[]], none, []⟩, ⟨1, 1, 0, 0⟩⟩ :
        SlideHorizontalAnimation Nat).buildFrame id 0
        TransitionDirection.Next = none := by
  exact ⟨rfl, rfl⟩

/-- C7 (amended): degenerate sizes are only partially well defined.
Zero rows: construction itself fails (the `left.rows[0]` access in the
column-count assert panics), so no transition over a zero-row combined
grid exists. Zero columns: `total_frames() = 0`, and `build_frame`
returns a well-defined Frame of all-empty lines when the viewport also
has zero columns, but fails (out-of-range slice) when the viewport
column count is positive. -/
theorem degenerate_spec {α : Type} [DecidableEq α] (w : α → Nat) :
    (∀ (left right : TerminalGrid α) (d : WindowSize), left.rows = [] →
      SlideHorizontalAnimation.new left right d = none) ∧
    (∀ a : SlideHorizontalAnimation α, a.grid.rows.head? = some [] →
      a.dimensions.columns = 0 →
      a.totalFrames = some 0 ∧
      ∀ f dir, a.buildFrame w f dir =
        some ⟨a.grid.rows.map (fun _ => Line.mk []), a.grid.background_color⟩) ∧
    (∀ a : SlideHorizontalAnimation α, a.grid.rows.head? = some [] →
      0 < a.dimensions.columns →
      ∀ f dir, a.buildFrame w f dir = none) := by
  refine ⟨fun l r d hl => ?_, fun a h0 hc => ?_, fun a h0 hc f dir => ?_⟩
  · unfold SlideHorizontalAnimation.new
    rw [hl]
    split
    · cases r.rows.head? <;> rfl
    · rfl
  · have htot : a.totalFrames = some 0 := by
      unfold SlideHorizontalAnimation.totalFrames
      rw [h0]
      show some (([] : List (StyledChar α)).length - a.dimensions.columns) = some 0
      rw [List.length_nil, Nat.zero_sub]
    refine ⟨htot, fun f dir => ?_⟩
    rw [buildFrame_eq w a 0 htot]
    have hz : (match dir with
        | TransitionDirection.Next => min f 0
        | TransitionDirection.Previous => 0 - min f 0) = 0 := by
      cases dir <;> simp
    rw [hz, hc, buildRows_zero w a.grid.rows]
  · have htot : a.totalFrames = some 0 := by
      unfold SlideHorizontalAnimation.totalFrames
      rw [h0]
      show some (([] : List (StyledChar α)).length - a.dimensions.columns) = some 0
      rw [List.length_nil, Nat.zero_sub]
    rw [buildFrame_eq w a 0 htot]
    cases hrows : a.grid.rows with
    | nil => rw [hrows] at h0; exact absurd h0 (by simp)
    | cons r rest =>
      rw [hrows] at h0
      have hr : r = [] := by simpa using h0
      subst hr
      have hslice : sliceRow ([] : List (StyledChar α)) (match dir with
          | TransitionDirection.Next => min f 0
          | TransitionDirection.Previous => 0 - min f 0)
          a.dimensions.columns = none := by
        unfold sliceRow
        rw [if_neg (by simp; omega)]
      unfold buildRows
      rw [hslice]

/-- Witness for C7 (amended): zero-row grids abort construction, and a
zero-column grid under a zero-column viewport yields the empty-lines
frame. -/
theorem degenerate_spec_witness :
    SlideHorizontalAnimation.new (⟨[], none, []⟩ : TerminalGrid Nat)
        ⟨[], none, []⟩ ⟨0, 0, 0, 0⟩ = none ∧
    (⟨⟨[[]], none, []⟩, ⟨1, 0, 0, 0⟩⟩ :
        SlideHorizontalAnimation Nat).buildFrame id 3
        TransitionDirection.Previous = some ⟨[Line.mk []], none⟩ :=
  ⟨(degenerate_spec (id : Nat → Nat)).1 ⟨[], none, []⟩ ⟨[], none, []⟩
      ⟨0, 0, 0, 0⟩ rfl,
   ((degenerate_spec (id : Nat → Nat)).2.1 ⟨⟨[[]], none, []⟩, ⟨1, 0, 0, 0⟩⟩
      rfl rfl).2 3 TransitionDirection.Previous⟩

/-- C8: fail-fast construction: `new` succeeds exactly when the row
counts agree, the representative (first) rows exist and have equal
length, and the backgrounds agree; any mismatch aborts construction
(`none`, the model of the fatal `assert!`). -/
theorem new_isSome_iff {α : Type} (left right : TerminalGrid α)
    (d : WindowSize) :
    (SlideHorizontalAnimation.new left right d).isSome ↔
      left.rows.length = right.rows.length ∧
      (∃ l0 r0, left.rows.head? = some l0 ∧ right.rows.head? = some r0 ∧
        l0.length = r0.length) ∧
      left.background_color = right.background_color := by
  rw [Option.isSome_iff_exists]
  constructor
  · rintro ⟨t, ht⟩
    obtain ⟨h1, h2, h3, -⟩ := new_eq_some_iff.mp ht
    exact ⟨h1, h2, h3⟩
  · rintro ⟨h1, h2, h3⟩
    exact ⟨_, new_eq_some_iff.mpr ⟨h1, h2, h3, rfl⟩⟩

/-- Witness for C8: the source's test grids satisfy the three
conditions, so construction succeeds. -/
theorem new_isSome_iff_witness :
    (SlideHorizontalAnimation.new exLeft exRight exDims).isSome :=
  (new_isSome_iff exLeft exRight exDims).mpr
    ⟨rfl, ⟨_, _, rfl, rfl, rfl⟩, rfl⟩

/-- C9: image anchors are dropped on merge: for every pair of
compatible input grids, the combined grid owned by the transition has
an empty image set. -/
theorem combined_images_empty {α : Type} (left right : TerminalGrid α)
    (d : WindowSize) (t : SlideHorizontalAnimation α)
    (h : SlideHorizontalAnimation.new left right d = some t) :
    t.grid.images = [] := by
  obtain ⟨-, -, -, rfl⟩ := new_eq_some_iff.mp h
  rfl

/-- Witness for C9: the source's test transition carries no images. -/
theorem combined_images_empty_witness : exAnim.grid.images = [] :=
  combined_images_empty exLeft exRight exDims exAnim (by decide)

/-- C10 counterexample: a line CAN exceed the viewport width. Over the
rectangular 1×4 grid `[1, 1, 1, 2]` (all cells share one style; char
`2` has display width 2 under `w = id`) with a 4-column viewport, the
single merged run has visual width 5 > 4, is "truncated" to
⌊(4-0)/1⌋ = 4 leading characters — i.e. kept whole — and the emitted
line has total visual width 5, exceeding `viewport.columns = 4`. -/
theorem lineWidth_overflow_cex :
    (⟨⟨[[⟨1, ⟨1, 0⟩⟩, ⟨1, ⟨1, 0⟩⟩, ⟨1, ⟨1, 0⟩⟩, ⟨2, ⟨1, 0⟩⟩]], none, []⟩,
        ⟨1, 4, 0, 0⟩⟩ : SlideHorizontalAnimation Nat).buildFrame id 0
        TransitionDirection.Next =
      some ⟨[Line.mk [⟨[1, 1, 1, 2], ⟨1, 0⟩⟩]], none⟩ ∧
    4 < lineWidth id (Line.mk [(⟨[1, 1, 1, 2], ⟨1, 0⟩⟩ : Text Nat)]) :=
  ⟨rfl, by decide⟩

/-- C10 (amended): the output-width invariant holds when every
character in the grid has display width at most 1 (it can fail for
wider glyphs, which char-count truncation keeps whole): every line of
every Frame `build_frame` returns has total visual width — the sum
over its runs of content display width times style size — at most
`viewport.columns`. -/
theorem lineWidth_le_viewport {α : Type} [DecidableEq α] (w : α → Nat)
    (a : SlideHorizontalAnimation α) (f : Nat) (d : TransitionDirection)
    (fr : LinesFrame α)
    (hchars : ∀ row ∈ a.grid.rows, ∀ c ∈ row, w c.character ≤ 1)
    (h : a.buildFrame w f d = some fr) :
    ∀ line ∈ fr.lines, lineWidth w line ≤ a.dimensions.columns := by
  cases ht : a.totalFrames with
  | none =>
    rw [show a.buildFrame w f d = none from by
      unfold SlideHorizontalAnimation.buildFrame; rw [ht]] at h
    exact absurd h (by simp)
  | some total =>
    rw [buildFrame_eq w a total ht f d] at h
    split at h
    · exact absurd h (by simp)
    case h_2 lines hbr =>
      have hfr := (Option.some.inj h).symm
      subst hfr
      intro line hl
      obtain ⟨row, hrow, rs, hrs, rfl⟩ :=
        buildRows_mem w a.dimensions.columns _ a.grid.rows lines hbr line hl
      have hcb : ∀ c ∈ rs, w c.character ≤ 1 :=
        fun c hc => hchars row hrow c (sliceRow_subset hrs c hc)
      have hts := TerminalRowIterator_chars (fun ch => w ch ≤ 1) rs hcb
      have hbound := accumRuns_width_le w a.dimensions.columns 0
        (TerminalRowIterator rs) hts
      show runsWidth w (accumRuns w a.dimensions.columns 0
        (TerminalRowIterator rs)) ≤ a.dimensions.columns
      omega

/-- Witness for C10 (amended): on the source's test transition (narrow
characters only), the first line of frame 0 fits the 2-column
viewport. -/
theorem lineWidth_le_viewport_witness :
    lineWidth w1 (Line.mk [⟨['A', 'B'], ⟨1, 0⟩⟩]) ≤ exAnim.dimensions.columns :=
  lineWidth_le_viewport w1 exAnim 0 TransitionDirection.Next
    ⟨[Line.mk [⟨['A', 'B'], ⟨1, 0⟩⟩], Line.mk [⟨['C', 'D'], ⟨1, 0⟩⟩]], none⟩
    (by decide) rfl (Line.mk [⟨['A', 'B'], ⟨1, 0⟩⟩]) (by decide)

end Presenterm
